import Mathlib

/-
Verification development for the FIFA analytics dashboard.

The repository is a pandas/scikit-learn/streamlit dashboard over a table of
player records.  This file gives a shallow embedding of the analysis
functions the specification talks about, with pandas DataFrames modelled as
Lean lists (or, where column and aliasing structure matters, as association
rows in an explicit heap), machine reals modelled as rationals, and fallible
code modelled with Except/Option.  Theorems relate the embedded code to
statements taken from the specification.
-/

namespace FifaDash

/-! ### String containment, mirroring the Python `pat in s` test -/

/-- Decides whether the first character list is an initial segment of the second. -/
def listLeadsWith : List Char → List Char → Bool
  | [], _ => true
  | _ :: _, [] => false
  | a :: as, b :: bs => a == b && listLeadsWith as bs

/-- Decides whether the first character list occurs contiguously inside the second. -/
def listOccursIn (pat : List Char) : List Char → Bool
  | [] => pat.isEmpty
  | c :: rest => listLeadsWith pat (c :: rest) || listOccursIn pat rest

/-- Embedding of the Python substring test `pat in hay` on strings. -/
def strContains (hay pat : String) : Bool :=
  listOccursIn pat.data hay.data

/-! ### C1: `PlayerAnalyzer.calculate_performance_index` (src/utils/analytics.py)

A player record is modelled by its `player_positions` string together with
the ability attributes the function reads; a missing (NaN) attribute is
`none`. -/

/-- Ability attributes read by `calculate_performance_index`. -/
inductive Attr
  | gkDiving | gkHandling | gkKicking | gkPositioning | gkReflexes
  | defending | physic | pace | passing | dribbling | shooting
  deriving DecidableEq

/-- A player record as seen by `calculate_performance_index`. -/
structure Player where
  player_positions : String
  attrs : Attr → Option ℚ

/-- Goalkeeper weight table from the source. -/
def gkWeights : List (Attr × ℚ) :=
  [(.gkDiving, 1/5), (.gkHandling, 1/5), (.gkKicking, 3/20),
   (.gkPositioning, 1/5), (.gkReflexes, 1/4)]

/-- Defender weight table from the source. -/
def defenderWeights : List (Attr × ℚ) :=
  [(.defending, 3/10), (.physic, 1/5), (.pace, 1/5), (.passing, 1/5), (.dribbling, 1/10)]

/-- Midfielder weight table from the source. -/
def midfielderWeights : List (Attr × ℚ) :=
  [(.passing, 3/10), (.dribbling, 1/4), (.defending, 3/20), (.physic, 3/20), (.shooting, 3/20)]

/-- Forward and winger weight table from the source. -/
def forwardWeights : List (Attr × ℚ) :=
  [(.shooting, 3/10), (.pace, 1/4), (.dribbling, 1/4), (.passing, 1/10), (.physic, 1/10)]

/-- Weight-table selection: the if/elif chain of `calculate_performance_index`. -/
def selectWeights (position : String) : List (Attr × ℚ) :=
  if strContains position "GK" then gkWeights
  else if ["CB", "LB", "RB", "LWB", "RWB"].any (fun q => strContains position q) then
    defenderWeights
  else if ["CM", "CDM", "CAM"].any (fun q => strContains position q) then
    midfielderWeights
  else forwardWeights

/-- Accumulation of `performance_index` over the weight table: a term
contributes only when the attribute is present (the Python loop tests
`attribute in player_data and pd.notna(...)`). -/
def piNum (p : Player) (ws : List (Attr × ℚ)) : ℚ :=
  ws.foldl
    (fun acc aw =>
      match p.attrs aw.1 with
      | some v => acc + v * aw.2
      | none => acc) 0

/-- Accumulation of `total_weight` over the weight table. -/
def piDen (p : Player) (ws : List (Attr × ℚ)) : ℚ :=
  ws.foldl
    (fun acc aw =>
      match p.attrs aw.1 with
      | some _ => acc + aw.2
      | none => acc) 0

/-- Embedding of `PlayerAnalyzer.calculate_performance_index`: the weighted
accumulation, divided by the accumulated weight when that is positive. -/
def calculate_performance_index (p : Player) : ℚ :=
  if 0 < piDen p (selectWeights p.player_positions) then
    piNum p (selectWeights p.player_positions) / piDen p (selectWeights p.player_positions)
  else
    piNum p (selectWeights p.player_positions)

/-- Plain weighted sum of the attributes named by a weight table. -/
def specSum (p : Player) (ws : List (Attr × ℚ)) : ℚ :=
  ws.foldl (fun acc aw => acc + ((p.attrs aw.1).getD 0) * aw.2) 0

/-- The performance index as the claim states it: a fixed weighted sum whose
weight set is chosen by substring matching on `player_positions`, goalkeeper
weights when "GK" occurs, defender weights when any of CB, LB, RB, LWB, RWB
occurs, midfielder weights when any of CM, CDM, CAM occurs, and
forward/winger weights otherwise. -/
def performanceIndexSpec (p : Player) : ℚ :=
  specSum p
    (if strContains p.player_positions "GK" then gkWeights
     else if ["CB", "LB", "RB", "LWB", "RWB"].any
         (fun q => strContains p.player_positions q) then defenderWeights
     else if ["CM", "CDM", "CAM"].any
         (fun q => strContains p.player_positions q) then midfielderWeights
     else forwardWeights)

theorem piNum_eq_specSum_fold (p : Player) :
    ∀ (ws : List (Attr × ℚ)) (acc : ℚ), (∀ aw ∈ ws, (p.attrs aw.1).isSome) →
      ws.foldl
        (fun acc aw =>
          match p.attrs aw.1 with
          | some v => acc + v * aw.2
          | none => acc) acc =
      ws.foldl (fun acc aw => acc + ((p.attrs aw.1).getD 0) * aw.2) acc := by
  intro ws
  induction ws with
  | nil => intro acc _; rfl
  | cons a ws ih =>
    intro acc h
    obtain ⟨v, hv⟩ := Option.isSome_iff_exists.mp (h a (List.mem_cons_self a ws))
    simp only [List.foldl_cons, hv, Option.getD_some]
    exact ih _ (fun aw haw => h aw (List.mem_cons_of_mem a haw))

theorem piDen_eq_weightSum_fold (p : Player) :
    ∀ (ws : List (Attr × ℚ)) (acc : ℚ), (∀ aw ∈ ws, (p.attrs aw.1).isSome) →
      ws.foldl
        (fun acc aw =>
          match p.attrs aw.1 with
          | some _ => acc + aw.2
          | none => acc) acc =
      ws.foldl (fun acc aw => acc + aw.2) acc := by
  intro ws
  induction ws with
  | nil => intro acc _; rfl
  | cons a ws ih =>
    intro acc h
    obtain ⟨v, hv⟩ := Option.isSome_iff_exists.mp (h a (List.mem_cons_self a ws))
    simp only [List.foldl_cons, hv]
    exact ih _ (fun aw haw => h aw (List.mem_cons_of_mem a haw))

theorem selectWeights_weightSum (position : String) :
    (selectWeights position).foldl (fun acc aw => acc + aw.2) 0 = 1 := by
  unfold selectWeights
  split_ifs <;>
    simp only [gkWeights, defenderWeights, midfielderWeights, forwardWeights,
      List.foldl_cons, List.foldl_nil] <;> norm_num

/-- Complete-record case: when every attribute named by the selected weight
table is present, the normalisation divides by 1 and the index is the fixed
weighted sum with the table chosen by the substring-matching chain. -/
theorem perf_index_all_present_spec (p : Player)
    (h : ∀ aw ∈ selectWeights p.player_positions, (p.attrs aw.1).isSome) :
    calculate_performance_index p = performanceIndexSpec p := by
  have hnum : piNum p (selectWeights p.player_positions) =
      specSum p (selectWeights p.player_positions) :=
    piNum_eq_specSum_fold p _ 0 h
  have hden : piDen p (selectWeights p.player_positions) = 1 := by
    unfold piDen
    rw [piDen_eq_weightSum_fold p _ 0 h]
    exact selectWeights_weightSum _
  show (if 0 < piDen p (selectWeights p.player_positions) then
      piNum p (selectWeights p.player_positions) /
        piDen p (selectWeights p.player_positions)
    else piNum p (selectWeights p.player_positions)) =
      specSum p (selectWeights p.player_positions)
  rw [hden, hnum]
  norm_num

/-- Concrete striker with all forward-table attributes present. -/
def playerC1 : Player where
  player_positions := "ST"
  attrs := fun a =>
    match a with
    | .shooting => some 90
    | .pace => some 80
    | .dribbling => some 85
    | .passing => some 70
    | .physic => some 60
    | _ => none

/-- Concrete striker whose only present forward-table attribute is shooting;
the ability columns other than overall, potential and value_eur survive the
load step even when missing, so such records reach the function. -/
def playerC1gap : Player where
  player_positions := "ST"
  attrs := fun a =>
    match a with
    | .shooting => some 90
    | _ => none

/-- C1 counterexample: on a forward with only shooting = 90 present, the
source renormalises by the present-weight total and returns 90, while the
claimed fixed weighted sum (missing attributes contributing nothing) is
0.3 · 90 = 27, so the claim fails as stated. -/
theorem calculate_performance_index_not_fixed_sum :
    calculate_performance_index playerC1gap = 90 ∧
    performanceIndexSpec playerC1gap = 27 ∧
    calculate_performance_index playerC1gap ≠ performanceIndexSpec playerC1gap := by
  have hc1 : strContains "ST" "GK" = false := by decide
  have hc2 : strContains "ST" "CB" = false := by decide
  have hc3 : strContains "ST" "LB" = false := by decide
  have hc4 : strContains "ST" "RB" = false := by decide
  have hc5 : strContains "ST" "LWB" = false := by decide
  have hc6 : strContains "ST" "RWB" = false := by decide
  have hc7 : strContains "ST" "CM" = false := by decide
  have hc8 : strContains "ST" "CDM" = false := by decide
  have hc9 : strContains "ST" "CAM" = false := by decide
  refine ⟨?_, ?_, ?_⟩ <;>
    norm_num [calculate_performance_index, performanceIndexSpec, specSum, piNum, piDen,
      selectWeights, playerC1gap, forwardWeights,
      hc1, hc2, hc3, hc4, hc5, hc6, hc7, hc8, hc9,
      List.foldl_cons, List.foldl_nil]

/-- Weighted sum over the present attributes of a weight table, as the
amended claim words it. -/
def presentSum (p : Player) (ws : List (Attr × ℚ)) : ℚ :=
  ((ws.filter (fun aw => (p.attrs aw.1).isSome)).map
    (fun aw => (p.attrs aw.1).getD 0 * aw.2)).sum

/-- Total weight of the present attributes of a weight table. -/
def presentWeight (p : Player) (ws : List (Attr × ℚ)) : ℚ :=
  ((ws.filter (fun aw => (p.attrs aw.1).isSome)).map (fun aw => aw.2)).sum

theorem foldl_num_eq_presentSum (p : Player) :
    ∀ (ws : List (Attr × ℚ)) (acc : ℚ),
      ws.foldl
        (fun acc aw =>
          match p.attrs aw.1 with
          | some v => acc + v * aw.2
          | none => acc) acc = acc + presentSum p ws := by
  intro ws
  induction ws with
  | nil => intro acc; simp [presentSum]
  | cons a ws ih =>
    intro acc
    cases ha : p.attrs a.1 with
    | none =>
      simp only [List.foldl_cons, ha]
      rw [ih]
      congr 1
      simp [presentSum, List.filter_cons, ha]
    | some v =>
      simp only [List.foldl_cons, ha]
      rw [ih]
      have hs : presentSum p (a :: ws) = v * a.2 + presentSum p ws := by
        simp [presentSum, List.filter_cons, ha]
      rw [hs]
      ring

theorem foldl_weight_eq_presentWeight (p : Player) :
    ∀ (ws : List (Attr × ℚ)) (acc : ℚ),
      ws.foldl
        (fun acc aw =>
          match p.attrs aw.1 with
          | some _ => acc + aw.2
          | none => acc) acc = acc + presentWeight p ws := by
  intro ws
  induction ws with
  | nil => intro acc; simp [presentWeight]
  | cons a ws ih =>
    intro acc
    cases ha : p.attrs a.1 with
    | none =>
      simp only [List.foldl_cons, ha]
      rw [ih]
      congr 1
      simp [presentWeight, List.filter_cons, ha]
    | some v =>
      simp only [List.foldl_cons, ha]
      rw [ih]
      have hs : presentWeight p (a :: ws) = a.2 + presentWeight p ws := by
        simp [presentWeight, List.filter_cons, ha]
      rw [hs]
      ring

/-- C1 amended: for every player record, `calculate_performance_index`
returns the weighted sum of the position-specific attributes that are
present, divided by the total weight of the present attributes when that is
positive (a record with no present attribute yields 0), with the weight set
chosen by the claimed substring-matching chain; it equals the claimed fixed
weighted sum exactly on records whose selected-table attributes are all
present. -/
theorem calculate_performance_index_amended (p : Player) :
    (calculate_performance_index p =
      if 0 < presentWeight p (selectWeights p.player_positions) then
        presentSum p (selectWeights p.player_positions) /
          presentWeight p (selectWeights p.player_positions)
      else presentSum p (selectWeights p.player_positions)) ∧
    ((∀ aw ∈ selectWeights p.player_positions, (p.attrs aw.1).isSome) →
      calculate_performance_index p = performanceIndexSpec p) := by
  constructor
  · unfold calculate_performance_index piNum piDen
    rw [foldl_num_eq_presentSum, foldl_weight_eq_presentWeight]
    simp only [zero_add]
  · exact fun h => perf_index_all_present_spec p h

/-- Witness for the amended C1 theorem: on the fully present striker the
index is the claimed fixed weighted sum. -/
theorem calculate_performance_index_amended_witness :
    calculate_performance_index playerC1 = performanceIndexSpec playerC1 :=
  (calculate_performance_index_amended playerC1).2 (by decide)

/-! ### C2: `PlayerAnalyzer.identify_undervalued_players` (src/utils/analytics.py)

A row of the loaded DataFrame, with the columns these analysis and chart
functions read.  `overall` and `value_eur` are plain rationals because the
load step drops rows where they are missing. -/

/-- A player row as used by the value analysis and the chart components. -/
structure PRow where
  long_name : String
  club_name : String
  player_positions : String
  gender : String
  overall : ℚ
  value_eur : ℚ
  age : ℚ
  potential : ℚ
  deriving DecidableEq

/-- Median of a rational list as pandas computes it on a NaN-free series:
the middle element of the sorted values for odd length, the mean of the two
middle elements for even length.  The empty series (pandas NaN) is mapped
to 0; no claim exercises that case, since then there are no rows at all. -/
def medianQ (xs : List ℚ) : ℚ :=
  let s := xs.insertionSort (· ≤ ·)
  if xs.length = 0 then 0
  else if xs.length % 2 = 1 then s.getD (xs.length / 2) 0
  else (s.getD (xs.length / 2 - 1) 0 + s.getD (xs.length / 2) 0) / 2

/-- Sort key of the source call
`sort_values(["overall", "value_eur"], ascending=[False, True])`:
overall descending, ties broken by value ascending. -/
def undervalKey (a b : PRow) : Prop :=
  b.overall < a.overall ∨ (a.overall = b.overall ∧ a.value_eur ≤ b.value_eur)

instance : DecidableRel undervalKey := fun a b => by
  unfold undervalKey; infer_instance

/-- The sort key lifted to rows paired with their value_per_overall column. -/
def undervalKeyP (a b : PRow × ℚ) : Prop :=
  undervalKey a.1 b.1

instance : DecidableRel undervalKeyP := fun a b => by
  unfold undervalKeyP; infer_instance

/-- An output row of `identify_undervalued_players`: the five selected
columns, including the added value_per_overall column. -/
structure URow where
  long_name : String
  club_name : String
  overall : ℚ
  value_eur : ℚ
  value_per_overall : ℚ
  deriving DecidableEq

/-- Embedding of `PlayerAnalyzer.identify_undervalued_players`: pair each row
with its value_per_overall column on a copy, filter strictly below the median
times the threshold, sort by the key, select the output columns, and keep
the first 20 rows. -/
def identify_undervalued_players (df : List PRow) (threshold : ℚ) : List URow :=
  let dfCopy : List (PRow × ℚ) := df.map (fun r => (r, r.value_eur / r.overall))
  let med := medianQ (dfCopy.map (fun rv => rv.2))
  let underv := dfCopy.filter (fun rv => rv.2 < med * threshold)
  let sorted := underv.insertionSort undervalKeyP
  (sorted.map (fun rv =>
    { long_name := rv.1.long_name, club_name := rv.1.club_name,
      overall := rv.1.overall, value_eur := rv.1.value_eur,
      value_per_overall := rv.2 : URow })).take 20

/-- The undervaluation filter as the claim words it: exactly those rows whose
quotient value over overall is strictly below `t` times the median quotient
over all rows, sorted by overall rating descending and, within equal overall,
by value ascending, truncated to at most 20 rows. -/
def undervaluedSpec (df : List PRow) (t : ℚ) : List PRow :=
  let med := medianQ (df.map (fun r => r.value_eur / r.overall))
  ((df.filter (fun r => r.value_eur / r.overall < t * med)).insertionSort undervalKey).take 20

/-- Projection of a spec row to the output columns of the source function. -/
def toURow (r : PRow) : URow :=
  { long_name := r.long_name, club_name := r.club_name, overall := r.overall,
    value_eur := r.value_eur, value_per_overall := r.value_eur / r.overall }

/-- C2: on every DataFrame whose rows have positive overall rating (so that
the value to overall quotient is the real quotient, with no division-by-zero
escape), `identify_undervalued_players` returns exactly the rows the claim
describes, in the claimed order and truncation, under the output-column
projection. -/
theorem identify_undervalued_players_matches_spec (df : List PRow) (t : ℚ)
    (hpos : ∀ r ∈ df, 0 < r.overall) :
    identify_undervalued_players df t = (undervaluedSpec df t).map toURow := by
  unfold identify_undervalued_players undervaluedSpec
  simp only [List.map_map]
  have hmed : medianQ (df.map ((fun rv : PRow × ℚ => rv.2) ∘
      (fun r => (r, r.value_eur / r.overall)))) =
      medianQ (df.map (fun r => r.value_eur / r.overall)) := rfl
  rw [hmed]
  set med := medianQ (df.map (fun r => r.value_eur / r.overall)) with hmdef
  have hfil : (df.map (fun r => (r, r.value_eur / r.overall))).filter
      (fun rv => decide (rv.2 < med * t)) =
      (df.filter (fun r => decide (r.value_eur / r.overall < t * med))).map
        (fun r => (r, r.value_eur / r.overall)) := by
    rw [List.filter_map]
    congr 1
    apply List.filter_congr
    intro r _
    simp only [Function.comp_apply, decide_eq_decide]
    rw [mul_comm]
  rw [hfil]
  have hsort : ((df.filter (fun r => decide (r.value_eur / r.overall < t * med))).insertionSort
        undervalKey).map (fun r => (r, r.value_eur / r.overall)) =
      ((df.filter (fun r => decide (r.value_eur / r.overall < t * med))).map
        (fun r => (r, r.value_eur / r.overall))).insertionSort undervalKeyP := by
    apply List.map_insertionSort
    intro a _ b _
    exact Iff.rfl
  rw [← hsort, ← List.map_take, ← List.map_take, List.map_map]
  rfl

/-- Concrete DataFrame for the C2 witness. -/
def dfC2 : List PRow :=
  [{ long_name := "A", club_name := "CA", player_positions := "ST", gender := "Male",
     overall := 90, value_eur := 9000, age := 25, potential := 92 },
   { long_name := "B", club_name := "CB", player_positions := "CM", gender := "Male",
     overall := 80, value_eur := 800, age := 27, potential := 82 },
   { long_name := "C", club_name := "CC", player_positions := "CB", gender := "Female",
     overall := 70, value_eur := 7000, age := 30, potential := 71 }]

/-- Witness for C2 on a concrete three-row DataFrame. -/
theorem identify_undervalued_players_matches_spec_witness :
    identify_undervalued_players dfC2 (4/5) = (undervaluedSpec dfC2 (4/5)).map toURow :=
  identify_undervalued_players_matches_spec dfC2 (4/5) (by decide)

/-! ### C3: chart components that draw unseeded random samples -/

/-- Modelled library call: `DataFrame.sample(n)` with no `random_state` draws
`n` rows without replacement using a freshly seeded random generator.  The
hidden generator state is made explicit as the `rng` argument, and the draw
is modelled as an rng-dependent permutation of the rows truncated to `n`. -/
def sampleModel (xs : List PRow) (n : ℕ) (rng : ℕ) : List PRow :=
  (xs.rotate rng).take n

/-- Position filtering in `create_value_vs_performance_scatter`: the filter
applies only when the argument is a non-empty string other than "All"
(the Python test is `if position_filter and position_filter != 'All'`). -/
def filterPos (df : List PRow) (pf : Option String) : List PRow :=
  match pf with
  | none => df
  | some p =>
    if p ≠ "" ∧ p ≠ "All" then df.filter (fun r => strContains r.player_positions p)
    else df

/-- Embedding of `create_value_vs_performance_scatter`
(src/utils/visualizations.py) up to the sampled rows, which determine the
chart data: the filtered frame is sampled with `sample(min(1000, len))`. -/
def create_value_vs_performance_scatter (df : List PRow) (pf : Option String)
    (rng : ℕ) : List PRow :=
  sampleModel (filterPos df pf) (min 1000 (filterPos df pf).length) rng

/-- Embedding of the Age vs Overall scatter of the Overview tab (src/app.py),
which samples the filtered frame with `sample(min(1000, len(filtered_df)))`. -/
def overviewAgeScatter (df : List PRow) (rng : ℕ) : List PRow :=
  sampleModel df (min 1000 df.length) rng

/-- First row of the concrete two-row DataFrame used against C3. -/
def rowC3a : PRow :=
  { long_name := "P1", club_name := "C1", player_positions := "ST", gender := "Male",
    overall := 80, value_eur := 1000, age := 22, potential := 85 }

/-- Second row of the concrete two-row DataFrame used against C3. -/
def rowC3b : PRow :=
  { long_name := "P2", club_name := "C2", player_positions := "CB", gender := "Male",
    overall := 75, value_eur := 900, age := 28, potential := 77 }

/-- Concrete DataFrame used against C3. -/
def dfC3 : List PRow := [rowC3a, rowC3b]

/-- C3 counterexample: on the same two-row DataFrame with the same
parameters, two runs of the sampling chart components (two states of the
hidden random generator consumed by the unseeded `sample` call) return
different chart data, refuting the claim that repeated calls with identical
inputs produce the same output. -/
theorem scatter_not_run_independent :
    create_value_vs_performance_scatter dfC3 none 0 ≠
      create_value_vs_performance_scatter dfC3 none 1 ∧
    overviewAgeScatter dfC3 0 ≠ overviewAgeScatter dfC3 1 := by
  constructor <;> decide

/-- C3 amended: each sampling chart component is a pure function of its
DataFrame, its scalar parameters and the hidden random-generator state; for
every generator state its chart data is drawn from the filtered input rows,
with sample size min(1000, number of filtered rows).  Which rows appear can
differ between runs because the generator state is consumed afresh, as the
counterexample theorem shows on a concrete input. -/
theorem scatter_pure_given_rng (df : List PRow) (pf : Option String) (rng : ℕ) :
    (∀ x ∈ create_value_vs_performance_scatter df pf rng, x ∈ filterPos df pf) ∧
    (create_value_vs_performance_scatter df pf rng).length =
      min 1000 (filterPos df pf).length ∧
    (∀ x ∈ overviewAgeScatter df rng, x ∈ df) ∧
    (overviewAgeScatter df rng).length = min 1000 df.length := by
  refine ⟨?_, ?_, ?_, ?_⟩
  · intro x hx
    exact (List.mem_rotate).mp (List.mem_of_mem_take hx)
  · show ((List.rotate _ rng).take _).length = _
    rw [List.length_take, List.length_rotate]
    omega
  · intro x hx
    exact (List.mem_rotate).mp (List.mem_of_mem_take hx)
  · show ((List.rotate _ rng).take _).length = _
    rw [List.length_take, List.length_rotate]
    omega

/-- Witness for the amended C3 theorem: applying its membership part on the
concrete DataFrame and generator state 1. -/
theorem scatter_pure_given_rng_witness : rowC3b ∈ filterPos dfC3 none :=
  (scatter_pure_given_rng dfC3 none 1).1 rowC3b (by decide)

/-! ### C5: `PlayerClusterAnalyzer.perform_clustering` (src/tactical_analysis.py)
and the inline clustering of the ML Insights tab (src/app.py) -/

/-- A player row as used by clustering and similarity search: the ability
features may be missing (NaN). -/
structure SRow where
  player_id : ℕ
  long_name : String
  club_name : String
  overall : Option ℚ
  pace : Option ℚ
  shooting : Option ℚ
  passing : Option ℚ
  dribbling : Option ℚ
  defending : Option ℚ
  physic : Option ℚ
  age : Option ℚ
  value_eur : ℚ
  deriving DecidableEq

/-- The clustering feature columns of `PlayerClusterAnalyzer`, in source order. -/
def clusterFeats (r : SRow) : List (Option ℚ) :=
  [r.pace, r.shooting, r.passing, r.dribbling, r.defending, r.physic, r.overall]

/-- Rows kept by `df[cluster_features].dropna()`. -/
def clusterComplete (r : SRow) : Bool :=
  (clusterFeats r).all (fun c => c.isSome)

/-- Modelled library call: `StandardScaler.fit_transform` rescales feature
columns and keeps the number and order of samples.  The claims depend only
on that shape, so the rescaling itself is modelled as the identity. -/
def scalerModel (data : List (List ℚ)) : List (List ℚ) := data

/-- Modelled library call: `KMeans(n_clusters=n).fit_predict` returns exactly
one label in the range 0..n-1 for each input sample.  The concrete assignment
is internal to scikit-learn and is modelled as an arbitrary function with
that contract, one label per sample. -/
def kmeansFitPredict (n : ℕ) (data : List (List ℚ)) : List ℕ :=
  (List.range data.length).map (fun i => i % n)

/-- Embedding of `perform_clustering`: drop rows with a missing clustering
feature, scale, cluster, and attach one label to each kept row (the source
writes the label vector into a `cluster` column of the kept-row copy). -/
def perform_clustering (df : List SRow) (n : ℕ) : List (SRow × ℕ) :=
  let kept := df.filter clusterComplete
  let scaled := scalerModel (kept.map (fun r => (clusterFeats r).map (fun c => c.getD 0)))
  let labels := kmeansFitPredict n scaled
  kept.zip labels

/-- The ML Insights tab's feature columns (src/app.py), in source order. -/
def mlInsightsFeats (r : SRow) : List (Option ℚ) :=
  [r.overall, r.pace, r.shooting, r.passing, r.dribbling, r.defending, r.physic]

/-- Rows kept by the ML Insights tab's `dropna()`. -/
def mlInsightsComplete (r : SRow) : Bool :=
  (mlInsightsFeats r).all (fun c => c.isSome)

/-- Embedding of the clustering step of the ML Insights tab: the same
pipeline under the tab's size guards (more than 10 filtered rows, more than
5 complete rows). -/
def mlInsightsClustering (df : List SRow) (n : ℕ) : Option (List (SRow × ℕ)) :=
  if 10 < df.length then
    if 5 < (df.filter mlInsightsComplete).length then
      some ((df.filter mlInsightsComplete).zip
        (kmeansFitPredict n
          (scalerModel ((df.filter mlInsightsComplete).map
            (fun r => (mlInsightsFeats r).map (fun c => c.getD 0))))))
    else none
  else none

theorem zip_labels_spec {α : Type} (kept : List α) (n : ℕ) (hn : 0 < n)
    (scaled : List (List ℚ)) (hlen : scaled.length = kept.length) :
    (kept.zip (kmeansFitPredict n scaled)).map Prod.fst = kept ∧
      ∀ p ∈ kept.zip (kmeansFitPredict n scaled), p.2 < n := by
  constructor
  · apply List.map_fst_zip
    simp [kmeansFitPredict, hlen]
  · intro p hp
    have h2 := (List.of_mem_zip hp).2
    simp only [kmeansFitPredict, List.mem_map, List.mem_range] at h2
    obtain ⟨i, _, hi⟩ := h2
    rw [← hi]
    exact Nat.mod_lt i hn

/-- C5: for every DataFrame and every positive cluster count `n`, each row
of the result of `perform_clustering` (and of the ML Insights tab's
clustering step, whenever its size guards admit the data) carries exactly
one cluster label, an integer below `n`, and the underlying rows are exactly
the input rows whose clustering features are all present, so rows with a
missing feature do not appear at all. -/
theorem perform_clustering_label_invariant (df : List SRow) (n : ℕ) (hn : 0 < n) :
    ((perform_clustering df n).map Prod.fst = df.filter clusterComplete ∧
      ∀ p ∈ perform_clustering df n, p.2 < n) ∧
    ∀ res, mlInsightsClustering df n = some res →
      res.map Prod.fst = df.filter mlInsightsComplete ∧ ∀ p ∈ res, p.2 < n := by
  constructor
  · exact zip_labels_spec (df.filter clusterComplete) n hn _ (by simp [scalerModel])
  · intro res hres
    unfold mlInsightsClustering at hres
    split_ifs at hres
    injection hres with h
    subst h
    exact zip_labels_spec (df.filter mlInsightsComplete) n hn _ (by simp [scalerModel])

/-- Concrete DataFrame for the C5 witness: two complete rows and one row
with a missing feature. -/
def dfC5 : List SRow :=
  [{ player_id := 1, long_name := "A", club_name := "CA", overall := some 80,
     pace := some 70, shooting := some 60, passing := some 65, dribbling := some 66,
     defending := some 50, physic := some 72, age := some 24, value_eur := 1000 },
   { player_id := 2, long_name := "B", club_name := "CB", overall := some 75,
     pace := none, shooting := some 61, passing := some 62, dribbling := some 63,
     defending := some 52, physic := some 70, age := some 26, value_eur := 900 },
   { player_id := 3, long_name := "C", club_name := "CC", overall := some 70,
     pace := some 72, shooting := some 55, passing := some 58, dribbling := some 59,
     defending := some 55, physic := some 68, age := some 28, value_eur := 800 }]

/-- Witness for C5: the clustering invariant applied at a concrete DataFrame
with three clusters. -/
theorem perform_clustering_label_invariant_witness :
    (perform_clustering dfC5 3).map Prod.fst = dfC5.filter clusterComplete :=
  (perform_clustering_label_invariant dfC5 3 (by decide)).1.1

/-! ### C10: `PlayerAnalyzer.find_similar_players` (src/utils/analytics.py)

The source computes cosine similarities of the target row against all rows
whose eight feature columns are complete, argsorts them ascending, slices
off the last entry (assumed to be the target itself) with `[-n-1:-1]`, and
reverses.  Cosine values are irrational, but only their order matters for
argsort, so the embedding ranks rows by a strictly monotone rational image
of the cosine: for vectors with positive squared norms x and y,
dot u v / (su·√x) is ordered as (dot u v)·|dot u v| / (su²·x), because
t ↦ t·|t| is strictly monotone and squares the magnitude. -/

/-- Similarity feature columns of `find_similar_players`, in source order. -/
def simFeats (r : SRow) : List (Option ℚ) :=
  [r.overall, r.pace, r.shooting, r.passing, r.dribbling, r.defending, r.physic, r.age]

/-- Rows kept by `df[feature_cols].dropna()`. -/
def simComplete (r : SRow) : Bool :=
  (simFeats r).all (fun c => c.isSome)

/-- Feature vector of a row (complete rows only are ever ranked). -/
def simVals (r : SRow) : List ℚ :=
  (simFeats r).map (fun c => c.getD 0)

/-- Dot product of rational vectors. -/
def dotQ (u v : List ℚ) : ℚ :=
  ((u.zip v).map (fun p => p.1 * p.2)).sum

/-- Squared Euclidean norm. -/
def sqQ (u : List ℚ) : ℚ :=
  (u.map (fun a => a * a)).sum

/-- Square with sign: a strictly monotone image of a number. -/
def signedSq (a : ℚ) : ℚ :=
  if a < 0 then -(a * a) else a * a

/-- Strictly monotone rational image of the cosine similarity of `v` against
the target vector `u`; a zero vector gets similarity 0, as in sklearn. -/
def simKey (u v : List ℚ) : ℚ :=
  if sqQ u = 0 ∨ sqQ v = 0 then 0
  else signedSq (dotQ u v) / (sqQ u * sqQ v)

/-- Ascending comparison of similarity-array entries used to model
`numpy.argsort`: by value, with equal values kept in index order (a stable
determinization of the unspecified tie order). -/
def argLE (keys : List ℚ) (i j : ℕ) : Prop :=
  keys.getD i 0 < keys.getD j 0 ∨ (keys.getD i 0 = keys.getD j 0 ∧ i ≤ j)

instance (keys : List ℚ) : DecidableRel (argLE keys) := fun i j => by
  unfold argLE; infer_instance

instance (keys : List ℚ) : IsTotal ℕ (argLE keys) := by
  constructor
  intro a b
  rcases lt_trichotomy (keys.getD a 0) (keys.getD b 0) with h | h | h
  · exact Or.inl (Or.inl h)
  · rcases le_total a b with hab | hab
    · exact Or.inl (Or.inr ⟨h, hab⟩)
    · exact Or.inr (Or.inr ⟨h.symm, hab⟩)
  · exact Or.inr (Or.inl h)

instance (keys : List ℚ) : IsTrans ℕ (argLE keys) := by
  constructor
  intro a b c hab hbc
  rcases hab with h1 | ⟨h1, h1i⟩ <;> rcases hbc with h2 | ⟨h2, h2i⟩
  · exact Or.inl (h1.trans h2)
  · exact Or.inl (h2 ▸ h1)
  · exact Or.inl (h1 ▸ h2)
  · exact Or.inr ⟨h1.trans h2, h1i.trans h2i⟩

/-- Model of `numpy.argsort` on the similarity array: the indices of the
array, sorted ascending by value. -/
def argsortAsc (keys : List ℚ) : List ℕ :=
  (List.range keys.length).insertionSort (argLE keys)

/-- The kept rows of `df[feature_cols].dropna()`, as (original position, row). -/
def simKept (df : List SRow) : List (ℕ × SRow) :=
  df.enum.filter (fun p => simComplete p.2)

/-- Similarity keys of the kept rows against the target row. -/
def simKeys (t : SRow) (df : List SRow) : List ℚ :=
  (simKept df).map (fun p => simKey (simVals t) (simVals p.2))

/-- The Python slice `s[-n-1:-1]` followed by `[::-1]`. -/
def simSlice (s : List ℕ) (n : ℕ) : List ℕ :=
  ((s.take (s.length - 1)).drop (s.length - 1 - n)).reverse

/-- An output row of `find_similar_players`: the selected columns plus the
added similarity column (represented by its monotone rational image). -/
structure SimOut where
  long_name : String
  club_name : String
  overall : Option ℚ
  value_eur : ℚ
  similarity_key : ℚ
  deriving DecidableEq

/-- The original DataFrame positions selected by `find_similar_players`. -/
def simSelectedIdx (df : List SRow) (pid : ℕ) (n : ℕ) : List ℕ :=
  match df.filter (fun r => r.player_id = pid) with
  | [] => []
  | t :: _ =>
    if simComplete t then
      (simSlice (argsortAsc (simKeys t df)) n).map
        (fun i => ((simKept df).getD i (0, t)).1)
    else []

/-- Embedding of `find_similar_players`: empty result when no row carries the
target id; a raised error when the target row has a missing feature (sklearn
refuses NaN input to `cosine_similarity`); otherwise the rows of the kept
list selected by the argsort slice, with their similarity attached. -/
def find_similar_players (df : List SRow) (pid : ℕ) (n : ℕ) :
    Except String (List SimOut) :=
  match df.filter (fun r => r.player_id = pid) with
  | [] => .ok []
  | t :: _ =>
    if simComplete t then
      .ok ((simSlice (argsortAsc (simKeys t df)) n).map
        (fun i =>
          let p := (simKept df).getD i (0, t)
          { long_name := p.2.long_name, club_name := p.2.club_name,
            overall := p.2.overall, value_eur := p.2.value_eur,
            similarity_key := (simKeys t df).getD i 0 }))
    else .error "Input contains NaN"

theorem argsortAsc_perm (keys : List ℚ) :
    (argsortAsc keys).Perm (List.range keys.length) :=
  List.perm_insertionSort _ _

theorem argsortAsc_nodup (keys : List ℚ) : (argsortAsc keys).Nodup :=
  (argsortAsc_perm keys).nodup_iff.mpr (List.nodup_range _)

theorem argsortAsc_length (keys : List ℚ) : (argsortAsc keys).length = keys.length :=
  (argsortAsc_perm keys).length_eq.trans (List.length_range _)

theorem argsortAsc_mem (keys : List ℚ) {i : ℕ} (h : i ∈ argsortAsc keys) :
    i < keys.length := by
  have := (argsortAsc_perm keys).mem_iff.mp h
  simpa using this

theorem argsortAsc_sorted (keys : List ℚ) :
    List.Sorted (argLE keys) (argsortAsc keys) :=
  List.sorted_insertionSort _ _

theorem sorted_dropLast_rel {r : ℕ → ℕ → Prop} {l : List ℕ} (hs : List.Sorted r l)
    (hne : l ≠ []) : ∀ x ∈ l.dropLast, r x (l.getLast hne) := by
  intro x hx
  have hp : List.Pairwise r (l.dropLast ++ [l.getLast hne]) := by
    rw [List.dropLast_append_getLast hne]; exact hs
  exact (List.pairwise_append.mp hp).2.2 x hx _ (List.mem_singleton.mpr rfl)

theorem argsort_last_of_strict_max (keys : List ℚ) (k : ℕ) (hk : k < keys.length)
    (hmax : ∀ j, j < keys.length → j ≠ k → keys.getD j 0 < keys.getD k 0)
    (hne : argsortAsc keys ≠ []) :
    (argsortAsc keys).getLast hne = k := by
  by_contra hlast
  have hmem : (argsortAsc keys).getLast hne ∈ argsortAsc keys := List.getLast_mem hne
  have hlt : (argsortAsc keys).getLast hne < keys.length := argsortAsc_mem keys hmem
  have hkmem : k ∈ argsortAsc keys :=
    (argsortAsc_perm keys).mem_iff.mpr (List.mem_range.mpr hk)
  have hkdl : k ∈ (argsortAsc keys).dropLast := by
    have hsplit := List.dropLast_append_getLast hne
    have hmm : k ∈ (argsortAsc keys).dropLast ++ [(argsortAsc keys).getLast hne] := by
      rw [hsplit]; exact hkmem
    rcases List.mem_append.mp hmm with h | h
    · exact h
    · exact absurd (List.mem_singleton.mp h).symm hlast
  have hrel : argLE keys k ((argsortAsc keys).getLast hne) :=
    sorted_dropLast_rel (argsortAsc_sorted keys) hne k hkdl
  have hstrict : keys.getD ((argsortAsc keys).getLast hne) 0 < keys.getD k 0 :=
    hmax _ hlt hlast
  rcases hrel with h | ⟨h, _⟩
  · exact absurd hstrict (lt_asymm h)
  · exact absurd hstrict (by rw [h]; exact lt_irrefl _)

theorem simKept_fst_nodup (df : List SRow) : ((simKept df).map Prod.fst).Nodup := by
  have hsub : List.Sublist (simKept df) df.enum := List.filter_sublist _
  have hsub2 : List.Sublist ((simKept df).map Prod.fst) (df.enum.map Prod.fst) :=
    hsub.map _
  rw [List.enum_map_fst] at hsub2
  exact (List.nodup_range _).sublist hsub2

theorem simKept_fst_inj (df : List SRow) (d : ℕ × SRow) (i j : ℕ)
    (hi : i < (simKept df).length) (hj : j < (simKept df).length)
    (h : ((simKept df).getD i d).1 = ((simKept df).getD j d).1) : i = j := by
  rw [List.getD_eq_getElem _ _ hi, List.getD_eq_getElem _ _ hj] at h
  have hnd := simKept_fst_nodup df
  have hi2 : i < ((simKept df).map Prod.fst).length := by simpa using hi
  have hj2 : j < ((simKept df).map Prod.fst).length := by simpa using hj
  have hm : ((simKept df).map Prod.fst)[i] = ((simKept df).map Prod.fst)[j] := by
    simpa [List.getElem_map] using h
  exact hnd.getElem_inj_iff.mp hm

theorem simSlice_length_le (s : List ℕ) (n : ℕ) : (simSlice s n).length ≤ n := by
  unfold simSlice
  rw [List.length_reverse, List.length_drop, List.length_take]
  omega

theorem simKeys_length (t : SRow) (df : List SRow) :
    (simKeys t df).length = (simKept df).length := by
  unfold simKeys; rw [List.length_map]

theorem simSelected_excludes_strict_max (df : List SRow) (pid n : ℕ)
    (t : SRow) (rest : List SRow)
    (hfil : df.filter (fun r => r.player_id = pid) = t :: rest)
    (hcomp : simComplete t = true)
    (k : ℕ) (hk : k < (simKept df).length)
    (hmax : ∀ j, j < (simKept df).length → j ≠ k →
      (simKeys t df).getD j 0 < (simKeys t df).getD k 0) :
    ((simKept df).getD k (0, t)).1 ∉ simSelectedIdx df pid n := by
  unfold simSelectedIdx
  rw [hfil]
  simp only [hcomp, if_true]
  intro hin
  obtain ⟨i, hiin, hieq⟩ := List.mem_map.mp hin
  set s := argsortAsc (simKeys t df) with hsdef
  have hslen : s.length = (simKept df).length := by
    rw [hsdef, argsortAsc_length, simKeys_length]
  have hsne : s ≠ [] := by
    intro h0
    rw [h0] at hslen
    simp at hslen
    omega
  have hlast : s.getLast hsne = k := by
    apply argsort_last_of_strict_max
    · rw [simKeys_length]; exact hk
    · intro j hj hjk
      exact hmax j (by rwa [simKeys_length] at hj) hjk
  -- the slice stays inside dropLast, which cannot contain k
  have htake : s.take (s.length - 1) = s.dropLast := (List.dropLast_eq_take s).symm
  have hidl : i ∈ s.dropLast := by
    have h1 : i ∈ (s.take (s.length - 1)).drop (s.length - 1 - n) :=
      List.mem_reverse.mp hiin
    rw [htake] at h1
    exact List.mem_of_mem_drop h1
  have hknotdl : k ∉ s.dropLast := by
    have hnd : (s.dropLast ++ [s.getLast hsne]).Nodup := by
      rw [List.dropLast_append_getLast hsne]
      exact argsortAsc_nodup _
    have hdisj := (List.nodup_append.mp hnd).2.2
    intro hkin
    exact hdisj hkin (by rw [hlast]; exact List.mem_singleton.mpr rfl)
  have hine : i ≠ k := fun he => hknotdl (he ▸ hidl)
  have hiin2 : i ∈ s := by
    have := List.dropLast_append_getLast hsne
    rw [← this]
    exact List.mem_append.mpr (Or.inl hidl)
  have hilt : i < (simKept df).length := by
    have := argsortAsc_mem _ hiin2
    rwa [simKeys_length] at this
  exact hine (simKept_fst_inj df (0, t) i k hilt hk hieq)

/-- Supporting fact for the C10 embedding: for positive squared norms, the
order of two cosine similarities against a fixed target agrees with the
order of the rational keys, because dividing the signed square of the dot
product by the product of squared norms is the image of the cosine under the
strictly monotone map t ↦ t·|t|. -/
theorem simKey_orders_cosine (a b c x y : ℝ) (hc : 0 < c) (hx : 0 < x) (hy : 0 < y) :
    a / (Real.sqrt c * Real.sqrt x) ≤ b / (Real.sqrt c * Real.sqrt y) ↔
      a * |a| / (c * x) ≤ b * |b| / (c * y) := by
  have hf : StrictMono (fun t : ℝ => t * |t|) := by
    intro s t hst
    rcases le_or_lt 0 s with hs | hs
    · have ht : 0 < t := lt_of_le_of_lt hs hst
      simp only [abs_of_nonneg hs, abs_of_pos ht]
      nlinarith
    · rcases le_or_lt 0 t with ht | ht
      · have h1 : s * |s| < 0 := by
          rw [abs_of_neg hs]; nlinarith
        have h2 : 0 ≤ t * |t| := by
          rw [abs_of_nonneg ht]; nlinarith [mul_self_nonneg t]
        simpa using lt_of_lt_of_le h1 h2
      · simp only [abs_of_neg hs, abs_of_neg ht]
        nlinarith
  have hcx : (0 : ℝ) < Real.sqrt c * Real.sqrt x :=
    mul_pos (Real.sqrt_pos.mpr hc) (Real.sqrt_pos.mpr hx)
  have hcy : (0 : ℝ) < Real.sqrt c * Real.sqrt y :=
    mul_pos (Real.sqrt_pos.mpr hc) (Real.sqrt_pos.mpr hy)
  have e1 : a * |a| / (c * x) =
      (a / (Real.sqrt c * Real.sqrt x)) * |a / (Real.sqrt c * Real.sqrt x)| := by
    rw [abs_div, abs_of_pos hcx, div_mul_div_comm, mul_mul_mul_comm,
      Real.mul_self_sqrt hc.le, Real.mul_self_sqrt hx.le]
  have e2 : b * |b| / (c * y) =
      (b / (Real.sqrt c * Real.sqrt y)) * |b / (Real.sqrt c * Real.sqrt y)| := by
    rw [abs_div, abs_of_pos hcy, div_mul_div_comm, mul_mul_mul_comm,
      Real.mul_self_sqrt hc.le, Real.mul_self_sqrt hy.le]
  rw [e1, e2]
  exact (hf.le_iff_le).symm

/-- First row (the target) of the concrete DataFrame used against C10: its
feature vector is identical to the second row's. -/
def rowC10a : SRow :=
  { player_id := 1, long_name := "A", club_name := "CA", overall := some 1,
    pace := some 1, shooting := some 1, passing := some 1, dribbling := some 1,
    defending := some 1, physic := some 1, age := some 1, value_eur := 100 }

/-- Second row of the concrete DataFrame used against C10. -/
def rowC10b : SRow :=
  { player_id := 2, long_name := "B", club_name := "CB", overall := some 1,
    pace := some 1, shooting := some 1, passing := some 1, dribbling := some 1,
    defending := some 1, physic := some 1, age := some 1, value_eur := 90 }

/-- Concrete DataFrame used against C10. -/
def dfC10 : List SRow := [rowC10a, rowC10b]

/-- C10 counterexample: when another row ties the target at the maximal
similarity (here an identical feature vector), the argsort slice excludes
the tied row instead of the target, and `find_similar_players` returns the
target player's own row: position 0 is selected, and position 0 holds the
row with the requested player id. -/
theorem find_similar_players_returns_target :
    simSelectedIdx dfC10 1 1 = [0] ∧ dfC10.get? 0 = some rowC10a ∧
      rowC10a.player_id = 1 ∧
      find_similar_players dfC10 1 1 =
        Except.ok [{ long_name := "A", club_name := "CA", overall := some 1,
                     value_eur := 100, similarity_key := 1 }] := by
  refine ⟨?_, rfl, rfl, ?_⟩
  · norm_num [simSelectedIdx, dfC10, rowC10a, rowC10b, simKept, simKeys, simKey, signedSq,
      simVals, simFeats, simComplete, sqQ, dotQ, argsortAsc, argLE, simSlice,
      List.insertionSort, List.orderedInsert, List.enum, List.enumFrom,
      List.range_succ]
  · norm_num [find_similar_players, dfC10, rowC10a, rowC10b, simKept, simKeys, simKey,
      signedSq, simVals, simFeats, simComplete, sqQ, dotQ, argsortAsc, argLE, simSlice,
      List.insertionSort, List.orderedInsert, List.enum, List.enumFrom,
      List.range_succ]

/-- C10 amended: `find_similar_players` returns an empty result when no row
carries the target id; when the target row exists but has a missing feature
the call raises; otherwise it returns at most `n_similar` rows, and the
selection excludes the top entry of the similarity ranking, so the target
player's own row is excluded whenever it is the strict maximizer of the
similarity ranking over the kept rows (with an exact tie the target's row
can be returned, as the counterexample shows). -/
theorem find_similar_players_amended (df : List SRow) (pid n : ℕ) :
    (df.filter (fun r => r.player_id = pid) = [] →
      find_similar_players df pid n = .ok []) ∧
    (∀ t rest, df.filter (fun r => r.player_id = pid) = t :: rest →
      (simComplete t = false →
        find_similar_players df pid n = .error "Input contains NaN") ∧
      (simComplete t = true →
        (∃ l, find_similar_players df pid n = .ok l ∧ l.length ≤ n) ∧
        ∀ k, k < (simKept df).length →
          (∀ j, j < (simKept df).length → j ≠ k →
            (simKeys t df).getD j 0 < (simKeys t df).getD k 0) →
          ((simKept df).getD k (0, t)).1 ∉ simSelectedIdx df pid n)) := by
  constructor
  · intro hfil
    unfold find_similar_players
    rw [hfil]
  · intro t rest hfil
    constructor
    · intro hcomp
      unfold find_similar_players
      rw [hfil]
      simp [hcomp]
    · intro hcomp
      constructor
      · unfold find_similar_players
        rw [hfil]
        simp only [hcomp, if_true]
        exact ⟨_, rfl, by rw [List.length_map]; exact simSlice_length_le _ n⟩
      · intro k hk hmax
        exact simSelected_excludes_strict_max df pid n t rest hfil hcomp k hk hmax

/-- Target row of the C10 witness DataFrame: all features 1. -/
def rowC10w1 : SRow :=
  { player_id := 1, long_name := "W1", club_name := "CW", overall := some 1,
    pace := some 1, shooting := some 1, passing := some 1, dribbling := some 1,
    defending := some 1, physic := some 1, age := some 1, value_eur := 50 }

/-- Second row of the C10 witness DataFrame: a different feature direction,
so the target is the strict maximizer of the similarity ranking. -/
def rowC10w2 : SRow :=
  { player_id := 2, long_name := "W2", club_name := "CW", overall := some 1,
    pace := some 0, shooting := some 0, passing := some 0, dribbling := some 0,
    defending := some 0, physic := some 0, age := some 0, value_eur := 40 }

/-- Concrete DataFrame for the C10 witness. -/
def dfC10w : List SRow := [rowC10w1, rowC10w2]

/-- Witness for the amended C10 theorem: on the witness DataFrame the target
row is the strict maximizer and its position is not selected. -/
theorem find_similar_players_amended_witness :
    ((simKept dfC10w).getD 0 (0, rowC10w1)).1 ∉ simSelectedIdx dfC10w 1 1 := by
  have h := ((find_similar_players_amended dfC10w 1 1).2 rowC10w1 [] (by decide)).2
    (by decide)
  refine h.2 0 (by decide) ?_
  intro j hj hjne
  have hlen : (simKept dfC10w).length = 2 := by decide
  rw [hlen] at hj
  interval_cases j
  · exact absurd rfl hjne
  · norm_num [simKeys, simKept, dfC10w, rowC10w1, rowC10w2, simKey, signedSq, simVals,
      simFeats, simComplete, sqQ, dotQ, List.enum, List.enumFrom]

/-! ### C6 and C7: `load_data` (src/app.py) and the advanced dashboard's
`load_data` (src/advanced_analytics.py)

CSV contents are modelled schema-level: a DataFrame is a column-name list
together with rows of (column, cell) pairs; a cell is a number, a string
label, or missing (NaN).  Each `pd.read_csv` result is an input of the
pipeline, `Except.error` standing for a failed read (missing file, parse
error); pandas operations that raise KeyError on a missing column are
modelled in Except. -/

/-- A DataFrame cell: numeric, string label, or missing (NaN). -/
inductive Cell
  | num (q : ℚ)
  | str (s : String)
  | missing
  deriving DecidableEq

/-- A row: association list from column names to cells. -/
abbrev RRow := List (String × Cell)

/-- A schema-level DataFrame. -/
structure RawDF where
  cols : List String
  rows : List RRow
  deriving DecidableEq

/-- Cell lookup: the first pair with this column name, missing otherwise. -/
def cellAt : RRow → String → Cell
  | [], _ => .missing
  | p :: r, c => if p.1 = c then p.2 else cellAt r c

/-- Column assignment on one row: any previous cell for the column is
replaced by the new one. -/
def setCellRow (r : RRow) (c : String) (v : Cell) : RRow :=
  (r.filter (fun p => p.1 ≠ c)) ++ [(c, v)]

/-- Column-name list after an assignment. -/
def setColName (cols : List String) (c : String) : List String :=
  if c ∈ cols then cols else cols ++ [c]

/-- Whole-column constant assignment, pandas `df[c] = v`. -/
def dfSetColConst (df : RawDF) (c : String) (v : Cell) : RawDF :=
  ⟨setColName df.cols c, df.rows.map (fun r => setCellRow r c v)⟩

/-- Row alignment of `pd.concat`: project a row onto a column list, filling
absent cells as missing. -/
def reproject (cols : List String) (r : RRow) : RRow :=
  cols.map (fun c => (c, cellAt r c))

/-- pandas `pd.concat([a, b], ignore_index=True)`: the union of the column
sets in order, rows aligned to it. -/
def dfConcat (a b : RawDF) : RawDF :=
  let cols := a.cols ++ b.cols.filter (fun c => c ∉ a.cols)
  ⟨cols, (a.rows ++ b.rows).map (reproject cols)⟩

/-- pandas `dropna(subset=...)`: KeyError when a subset column is absent,
otherwise keep exactly the rows whose subset cells are all present. -/
def dropnaSubset (df : RawDF) (subset : List String) : Except String RawDF :=
  if subset.all (fun c => df.cols.contains c) then
    .ok ⟨df.cols, df.rows.filter (fun r => subset.all (fun c => cellAt r c ≠ Cell.missing))⟩
  else .error "KeyError"

/-- Cell-level `fillna`: replace a missing cell by the given number. -/
def fillCell (x : Cell) (v : ℚ) : Cell :=
  match x with
  | .missing => .num v
  | y => y

/-- pandas `df[c] = df[c].fillna(v)`: KeyError when the column is absent. -/
def fillnaCol (df : RawDF) (c : String) (v : ℚ) : Except String RawDF :=
  if df.cols.contains c then
    .ok ⟨df.cols, df.rows.map (fun r => setCellRow r c (fillCell (cellAt r c) v))⟩
  else .error "KeyError"

/-- The label of `pd.cut(age, bins=[0, 20, 25, 30, 35, 50], labels=...)`:
ages outside (0, 50] and missing ages get a missing label. -/
def ageLabel : Cell → Cell
  | .num a =>
    if a ≤ 0 then .missing
    else if a ≤ 20 then .str "U20"
    else if a ≤ 25 then .str "20-25"
    else if a ≤ 30 then .str "25-30"
    else if a ≤ 35 then .str "30-35"
    else if a ≤ 50 then .str "35+"
    else .missing
  | _ => .missing

/-- `df["age_group"] = pd.cut(df["age"], ...)`: KeyError when age is absent. -/
def addAgeGroup (df : RawDF) : Except String RawDF :=
  if df.cols.contains "age" then
    .ok ⟨setColName df.cols "age_group",
      df.rows.map (fun r => setCellRow r "age_group" (ageLabel (cellAt r "age")))⟩
  else .error "KeyError"

/-- The concatenation with gender columns shared by the load paths. -/
def combineGender (m f : RawDF) : RawDF :=
  dfConcat (dfSetColConst m "gender" (.str "Male"))
    (dfSetColConst f "gender" (.str "Female"))

/-- The preprocessing pipeline inside the `try` of `load_data` in
src/app.py, applied to the two CSV read results. -/
def appLoadPipe (male fem : Except String RawDF) : Except String RawDF := do
  let m ← male
  let f ← fem
  let a1 ← dropnaSubset (combineGender m f) ["overall", "potential", "value_eur"]
  let a2 ← fillnaCol a1 "value_eur" 0
  let a3 ← fillnaCol a2 "wage_eur" 0
  addAgeGroup a3

/-- Embedding of `load_data` in src/app.py: the pipeline inside the broad
`except Exception`, a caught failure surfaced as `st.error` text (second
component) with result None. -/
def load_data (male fem : Except String RawDF) : Option RawDF × Option String :=
  match appLoadPipe male fem with
  | .ok df => (some df, none)
  | .error e => (none, some ("Error loading data: " ++ e))

/-- The guard at the top of `main` in src/app.py: the dashboard body renders
only when `load_data` returned a DataFrame; otherwise `st.stop()` halts. -/
def mainRenders (male fem : Except String RawDF) : Bool :=
  ((load_data male fem).1).isSome

/-- The preprocessing pipeline of `load_data` in src/advanced_analytics.py:
it drops only rows missing overall or potential. -/
def advLoadPipe (male fem : Except String RawDF) : Except String RawDF := do
  let m ← male
  let f ← fem
  dropnaSubset (combineGender m f) ["overall", "potential"]

/-- C6: every failure raised while reading or preprocessing the two CSV
files is caught: `load_data` returns None together with an on-screen error
message and the dashboard body does not render; on success it returns the
DataFrame with no message and the dashboard renders. -/
theorem load_data_catches_errors (male fem : Except String RawDF) :
    (∀ e, appLoadPipe male fem = .error e →
      load_data male fem = (none, some ("Error loading data: " ++ e)) ∧
        mainRenders male fem = false) ∧
    (∀ df, appLoadPipe male fem = .ok df →
      load_data male fem = (some df, none) ∧ mainRenders male fem = true) := by
  constructor
  · intro e he
    constructor <;> simp [load_data, mainRenders, he]
  · intro df hdf
    constructor <;> simp [load_data, mainRenders, hdf]

/-- Witness for C6: a failed read of the male CSV is caught and surfaced,
and the dashboard stops. -/
theorem load_data_catches_errors_witness :
    load_data (Except.error "FileNotFoundError") (Except.ok ⟨[], []⟩) =
      (none, some ("Error loading data: " ++ "FileNotFoundError")) ∧
    mainRenders (Except.error "FileNotFoundError") (Except.ok ⟨[], []⟩) = false :=
  (load_data_catches_errors (Except.error "FileNotFoundError")
    (Except.ok ⟨[], []⟩)).1 "FileNotFoundError" rfl

theorem exceptBind_ok {ε α β : Type} (a : α) (f : α → Except ε β) :
    (Except.ok a >>= f) = f a := rfl

theorem exceptBind_err {ε α β : Type} (e : ε) (f : α → Except ε β) :
    ((Except.error e : Except ε α) >>= f) = .error e := rfl

theorem cellAt_setCellRow_self (r : RRow) (c : String) (v : Cell) :
    cellAt (setCellRow r c v) c = v := by
  induction r with
  | nil => simp [setCellRow, cellAt]
  | cons p r ih =>
    by_cases h : p.1 = c
    · simpa [setCellRow, List.filter_cons, h] using ih
    · simpa [setCellRow, List.filter_cons, h, cellAt] using ih

theorem setCellRow_cons_eq (p : String × Cell) (r : RRow) (c : String) (v : Cell)
    (hp : p.1 = c) : setCellRow (p :: r) c v = setCellRow r c v := by
  simp [setCellRow, List.filter_cons, hp]

theorem setCellRow_cons_ne (p : String × Cell) (r : RRow) (c : String) (v : Cell)
    (hp : ¬ (p.1 = c)) : setCellRow (p :: r) c v = p :: setCellRow r c v := by
  simp [setCellRow, List.filter_cons, hp]

theorem cellAt_setCellRow_ne (r : RRow) (c c2 : String) (v : Cell) (h : c2 ≠ c) :
    cellAt (setCellRow r c v) c2 = cellAt r c2 := by
  induction r with
  | nil => simp [setCellRow, cellAt, show ¬ (c = c2) from fun hc => h hc.symm]
  | cons p r ih =>
    by_cases hp : p.1 = c
    · rw [setCellRow_cons_eq p r c v hp, ih, cellAt,
        if_neg (show ¬ (p.1 = c2) by rw [hp]; exact fun hc => h hc.symm)]
    · rw [setCellRow_cons_ne p r c v hp, cellAt, cellAt]
      by_cases hp2 : p.1 = c2
      · rw [if_pos hp2, if_pos hp2]
      · rw [if_neg hp2, if_neg hp2, ih]

theorem fillCell_ne_missing (x : Cell) (v : ℚ) : fillCell x v ≠ Cell.missing := by
  cases x <;> simp [fillCell]

theorem dropnaSubset_ok {df out : RawDF} {subset : List String}
    (h : dropnaSubset df subset = .ok out) :
    out.rows = df.rows.filter
      (fun r => subset.all (fun c => cellAt r c ≠ Cell.missing)) := by
  unfold dropnaSubset at h
  split_ifs at h
  injection h with h
  rw [← h]

theorem fillnaCol_ok {df out : RawDF} {c : String} {v : ℚ}
    (h : fillnaCol df c v = .ok out) :
    out.rows = df.rows.map (fun r => setCellRow r c (fillCell (cellAt r c) v)) := by
  unfold fillnaCol at h
  split_ifs at h
  injection h with h
  rw [← h]

theorem addAgeGroup_ok {df out : RawDF} (h : addAgeGroup df = .ok out) :
    out.rows = df.rows.map
      (fun r => setCellRow r "age_group" (ageLabel (cellAt r "age"))) := by
  unfold addAgeGroup at h
  split_ifs at h
  injection h with h
  rw [← h]

/-- C7 amended: in src/app.py every loaded row has non-missing overall,
potential and value_eur, and survival depends only on presence of those
cells, never on their values (the i-th surviving row's overall cell equals
the i-th presence-filtered input row's overall cell verbatim, so ratings
outside any plausible range are retained); in src/advanced_analytics.py only
overall and potential are checked, the returned rows being exactly the
presence-filtered input rows, so a row with a missing value_eur can be
returned there. -/
theorem load_time_validation (mdf fdf : RawDF) :
    (∀ df, appLoadPipe (.ok mdf) (.ok fdf) = .ok df →
      (∀ r ∈ df.rows,
        cellAt r "overall" ≠ Cell.missing ∧ cellAt r "potential" ≠ Cell.missing ∧
          cellAt r "value_eur" ≠ Cell.missing) ∧
      (∀ i : ℕ, (df.rows[i]?).map (fun r => cellAt r "overall") =
        (((combineGender mdf fdf).rows.filter
          (fun r => (["overall", "potential", "value_eur"] : List String).all
            (fun c => cellAt r c ≠ Cell.missing)))[i]?).map
          (fun r => cellAt r "overall"))) ∧
    (∀ df, advLoadPipe (.ok mdf) (.ok fdf) = .ok df →
      (∀ r ∈ df.rows,
        cellAt r "overall" ≠ Cell.missing ∧ cellAt r "potential" ≠ Cell.missing) ∧
      df.rows = (combineGender mdf fdf).rows.filter
        (fun r => (["overall", "potential"] : List String).all
          (fun c => cellAt r c ≠ Cell.missing))) := by
  constructor
  · intro df h
    replace h : (dropnaSubset (combineGender mdf fdf) ["overall", "potential", "value_eur"]
        >>= fun a1 => fillnaCol a1 "value_eur" 0 >>= fun a2 =>
          fillnaCol a2 "wage_eur" 0 >>= fun a3 => addAgeGroup a3) = Except.ok df := h
    cases h1 : dropnaSubset (combineGender mdf fdf) ["overall", "potential", "value_eur"] with
    | error e => rw [h1, exceptBind_err] at h; exact Except.noConfusion h
    | ok a1 =>
    rw [h1, exceptBind_ok] at h
    cases h2 : fillnaCol a1 "value_eur" 0 with
    | error e => rw [h2, exceptBind_err] at h; exact Except.noConfusion h
    | ok a2 =>
    rw [h2, exceptBind_ok] at h
    cases h3 : fillnaCol a2 "wage_eur" 0 with
    | error e => rw [h3, exceptBind_err] at h; exact Except.noConfusion h
    | ok a3 =>
    rw [h3, exceptBind_ok] at h
    have hr4 := addAgeGroup_ok h
    rw [fillnaCol_ok h3, fillnaCol_ok h2, dropnaSubset_ok h1, List.map_map,
      List.map_map] at hr4
    constructor
    · intro r hr
      rw [hr4] at hr
      obtain ⟨r0, hr0mem, hr0⟩ := List.mem_map.mp hr
      have hp := List.of_mem_filter hr0mem
      simp only [List.all_cons, List.all_nil, Bool.and_true, Bool.and_eq_true,
        decide_eq_true_eq] at hp
      obtain ⟨hov, hpo, hva⟩ := hp
      subst hr0
      refine ⟨?_, ?_, ?_⟩
      · rw [Function.comp_apply, Function.comp_apply,
          cellAt_setCellRow_ne _ _ _ _ (by decide),
          cellAt_setCellRow_ne _ _ _ _ (by decide),
          cellAt_setCellRow_ne _ _ _ _ (by decide)]
        exact hov
      · rw [Function.comp_apply, Function.comp_apply,
          cellAt_setCellRow_ne _ _ _ _ (by decide),
          cellAt_setCellRow_ne _ _ _ _ (by decide),
          cellAt_setCellRow_ne _ _ _ _ (by decide)]
        exact hpo
      · rw [Function.comp_apply, Function.comp_apply,
          cellAt_setCellRow_ne _ _ _ _ (by decide),
          cellAt_setCellRow_ne _ _ _ _ (by decide),
          cellAt_setCellRow_self]
        exact fillCell_ne_missing _ _
    · intro i
      rw [hr4, List.getElem?_map]
      cases hfi : ((combineGender mdf fdf).rows.filter
          (fun r => (["overall", "potential", "value_eur"] : List String).all
            (fun c => cellAt r c ≠ Cell.missing)))[i]? with
      | none => rfl
      | some r0 =>
        simp only [Option.map_some']
        rw [Function.comp_apply, Function.comp_apply,
          cellAt_setCellRow_ne _ _ _ _ (by decide),
          cellAt_setCellRow_ne _ _ _ _ (by decide),
          cellAt_setCellRow_ne _ _ _ _ (by decide)]
  · intro df h
    replace h : dropnaSubset (combineGender mdf fdf) ["overall", "potential"] =
        Except.ok df := h
    have hr := dropnaSubset_ok h
    refine ⟨?_, hr⟩
    intro r hrr
    rw [hr] at hrr
    have hp := List.of_mem_filter hrr
    simp only [List.all_cons, List.all_nil, Bool.and_true, Bool.and_eq_true,
      decide_eq_true_eq] at hp
    exact hp

/-- Male CSV content for the C7 counterexample: one row with overall and
potential present but value_eur missing. -/
def mC7 : RawDF :=
  ⟨["overall", "potential", "value_eur", "wage_eur", "age"],
   [[("overall", .num 50), ("potential", .num 60), ("value_eur", .missing),
     ("wage_eur", .missing), ("age", .num 25)]]⟩

/-- Female CSV content for the C7 counterexample: no rows. -/
def fC7 : RawDF := ⟨["overall", "potential", "value_eur", "wage_eur", "age"], []⟩

/-- C7 counterexample: the advanced dashboard's `load_data` succeeds on this
input and returns a row whose value_eur is missing, refuting the claim that
every row returned by load_data has non-missing overall, potential and
value_eur. -/
theorem advanced_load_keeps_missing_value :
    ∃ df, advLoadPipe (.ok mC7) (.ok fC7) = .ok df ∧
      ∃ r ∈ df.rows, cellAt r "value_eur" = Cell.missing := by
  refine ⟨_, rfl, ?_⟩
  decide

/-- The concrete result of the app load pipeline on the C7 input. -/
def appC7df : RawDF :=
  match appLoadPipe (.ok mC7) (.ok fC7) with
  | .ok d => d
  | .error _ => ⟨[], []⟩

/-- Witness for the amended C7 theorem: the retention correspondence applied
on the concrete C7 input at row position 0. -/
theorem load_time_validation_witness :
    ((appC7df.rows)[0]?).map (fun r => cellAt r "overall") =
      ((((combineGender mC7 fC7).rows.filter
        (fun r => (["overall", "potential", "value_eur"] : List String).all
          (fun c => cellAt r c ≠ Cell.missing)))[0]?).map
        (fun r => cellAt r "overall")) :=
  ((load_time_validation mC7 fC7).1 appC7df (by rfl)).2 0

/-! ### C9: the training guard of `PlayerValuePredictor` (src/utils/analytics.py) -/

/-- Errors `predict` can raise: the untrained-model ValueError, or the
shape-mismatch ValueError raised by `scaler.transform` when the feature
vector does not have the thirteen expected entries. -/
inductive PredictErr
  | notTrained
  | shapeMismatch
  deriving DecidableEq

/-- A training row of the predictor: the thirteen feature cells in
`feature_cols` order, and the value_eur target. -/
structure TRow where
  feats : List (Option ℚ)
  value_eur : Option ℚ
  deriving DecidableEq

/-- The mask of `prepare_data`: target strictly between 0 and 200M (false on
a missing target, as for NaN comparisons), no missing feature. -/
def trainMask (r : TRow) : Bool :=
  (match r.value_eur with
   | some v => decide (0 < v ∧ v < 200000000)
   | none => false) && r.feats.all (fun c => c.isSome)

/-- Predictor state: the `is_trained` flag and the fitted estimators,
modelled by the retained masked training targets. -/
structure PlayerValuePredictor where
  is_trained : Bool
  fitted : List ℚ
  deriving DecidableEq

/-- The `PlayerValuePredictor()` constructor: untrained. -/
def PlayerValuePredictor.init : PlayerValuePredictor :=
  { is_trained := false, fitted := [] }

/-- Embedding of `train`: apply the `prepare_data` mask, raise the
train_test_split ValueError when fewer than two rows remain (an empty train
or test split), otherwise fit (modelled by retaining the targets), set
`is_trained`, and return metrics (modelled by the masked sample count). -/
def PlayerValuePredictor.train (p : PlayerValuePredictor) (df : List TRow) :
    Except String (PlayerValuePredictor × ℕ) :=
  if (df.filter trainMask).length < 2 then .error "ValueError: empty split"
  else .ok ({ is_trained := true,
              fitted := (df.filter trainMask).map (fun r => r.value_eur.getD 0) },
    (df.filter trainMask).length)

/-- Mean of a rational list. -/
def meanQ (xs : List ℚ) : ℚ := xs.sum / (xs.length : ℚ)

/-- Modelled library call: the fitted random-forest prediction, a function of
the fitted state and the features. -/
def rfModel (fitted : List ℚ) (feats : List ℚ) : ℚ := meanQ fitted + feats.sum * 0

/-- Modelled library call: the fitted gradient-boosting prediction. -/
def gbModel (fitted : List ℚ) (feats : List ℚ) : ℚ := meanQ fitted + feats.sum * 0

/-- Embedding of `predict`: the untrained ValueError, then
`scaler.transform` (which raises on a wrong-length vector), then the
0.6/0.4 ensemble of the two model predictions. -/
def PlayerValuePredictor.predict (p : PlayerValuePredictor) (feats : List ℚ) :
    Except PredictErr ℚ :=
  if p.is_trained = false then .error .notTrained
  else if feats.length ≠ 13 then .error .shapeMismatch
  else .ok (3/5 * rfModel p.fitted feats + 2/5 * gbModel p.fitted feats)

/-- The thirteen feature columns of the predictor, in source order. -/
def feature_cols : List String :=
  ["overall", "potential", "age", "pace", "shooting", "passing", "dribbling",
   "defending", "physic", "height_cm", "weight_kg", "weak_foot", "skill_moves"]

/-- Embedding of `get_feature_importance`: the untrained ValueError, then the
random-forest importances (modelled as uniform weights) per feature name. -/
def PlayerValuePredictor.get_feature_importance (p : PlayerValuePredictor) :
    Except PredictErr (List (String × ℚ)) :=
  if p.is_trained = false then .error .notTrained
  else .ok (feature_cols.map (fun c => (c, 1/13)))

/-- C9: `predict` and `get_feature_importance` raise the untrained
ValueError exactly when `is_trained` is false; the constructor starts
untrained, every successful `train` sets `is_trained`, and afterwards
neither call raises for that reason. -/
theorem predictor_raises_iff_untrained :
    PlayerValuePredictor.init.is_trained = false ∧
    (∀ (p : PlayerValuePredictor) (f : List ℚ), p.is_trained = false →
      p.predict f = .error .notTrained ∧
        p.get_feature_importance = .error .notTrained) ∧
    (∀ (p : PlayerValuePredictor) (f : List ℚ), p.is_trained = true →
      p.predict f ≠ .error .notTrained ∧
        p.get_feature_importance ≠ .error .notTrained) ∧
    (∀ (p p2 : PlayerValuePredictor) (df : List TRow) (m : ℕ),
      p.train df = .ok (p2, m) →
      p2.is_trained = true ∧
      (∀ f, p2.predict f ≠ .error .notTrained) ∧
      ∃ l, p2.get_feature_importance = .ok l) := by
  refine ⟨rfl, ?_, ?_, ?_⟩
  · intro p f h
    constructor <;> simp [PlayerValuePredictor.predict,
      PlayerValuePredictor.get_feature_importance, h]
  · intro p f h
    constructor
    · unfold PlayerValuePredictor.predict
      rw [h]
      split_ifs <;> simp_all
    · unfold PlayerValuePredictor.get_feature_importance
      rw [h]
      simp
  · intro p p2 df m h
    unfold PlayerValuePredictor.train at h
    split_ifs at h
    injection h with h
    injection h with h hm
    have h2 : p2.is_trained = true := by
      rw [← h]
    refine ⟨h2, ?_, ?_⟩
    · intro f
      unfold PlayerValuePredictor.predict
      rw [h2]
      split_ifs <;> simp_all
    · unfold PlayerValuePredictor.get_feature_importance
      rw [h2]
      simp

/-- Concrete training DataFrame for the C9 witness: two rows passing the
`prepare_data` mask. -/
def dfC9 : List TRow :=
  [{ feats := List.replicate 13 (some 1), value_eur := some 100 },
   { feats := List.replicate 13 (some 2), value_eur := some 200 }]

/-- Witness for C9: training on the concrete DataFrame succeeds and the
returned predictor is trained. -/
theorem predictor_raises_iff_untrained_witness :
    ({ is_trained := true, fitted := [100, 200] } : PlayerValuePredictor).is_trained
      = true :=
  (predictor_raises_iff_untrained.2.2.2 PlayerValuePredictor.init
    { is_trained := true, fitted := [100, 200] } dfC9 2 (by rfl)).1

/-! ### C4: loaded DataFrames are read-only across the analysis calls

Pandas frames are aliasable objects, so the frame claim is stated over an
explicit heap: references name frames, `copy` and `.loc` selection allocate
fresh frames, and column assignment writes in place through a reference.
Each heap program below performs exactly the allocations and in-place
column writes of its source function and computes row content with the pure
embeddings above. -/

/-- A heap of DataFrame objects: an allocation counter and a reference map. -/
structure Heap where
  next : ℕ
  mem : List (ℕ × RawDF)

/-- Dereference. -/
def Heap.get (h : Heap) (r : ℕ) : Option RawDF :=
  (h.mem.find? (fun p => p.1 = r)).map (fun p => p.2)

/-- Allocate a fresh frame. -/
def Heap.alloc (h : Heap) (d : RawDF) : Heap × ℕ :=
  (⟨h.next + 1, (h.next, d) :: h.mem⟩, h.next)

/-- Overwrite the frame named by a reference. -/
def Heap.write (h : Heap) (r : ℕ) (d : RawDF) : Heap :=
  ⟨h.next, h.mem.map (fun p => if p.1 = r then (r, d) else p)⟩

/-- Well-formedness: all live references are below the counter. -/
def Heap.WF (h : Heap) : Prop :=
  ∀ p ∈ h.mem, p.1 < h.next

/-- Whole-column in-place assignment `ref[c] = cells`. -/
def dfSetColVals (d : RawDF) (c : String) (cells : List Cell) : RawDF :=
  ⟨setColName d.cols c, (d.rows.zip cells).map (fun rc => setCellRow rc.1 c rc.2)⟩

/-- The in-place column assignment through the heap. -/
def Heap.writeCol (h : Heap) (r : ℕ) (c : String) (cells : List Cell) : Heap :=
  match h.get r with
  | some d => h.write r (dfSetColVals d c cells)
  | none => h

theorem Heap.get_mem {h : Heap} {r : ℕ} {d : RawDF} (hg : h.get r = some d) :
    ∃ p ∈ h.mem, p.1 = r := by
  unfold Heap.get at hg
  cases hf : h.mem.find? (fun p => p.1 = r) with
  | none => rw [hf] at hg; exact Option.noConfusion hg
  | some p =>
    refine ⟨p, List.mem_of_find?_eq_some hf, ?_⟩
    have := List.find?_some hf
    simpa using this

theorem Heap.get_lt_next {h : Heap} {r : ℕ} {d : RawDF} (hwf : h.WF)
    (hg : h.get r = some d) : r < h.next := by
  obtain ⟨p, hp, hpr⟩ := Heap.get_mem hg
  exact hpr ▸ hwf p hp

theorem Heap.get_alloc_old {h : Heap} {r : ℕ} {d dr : RawDF} (hwf : h.WF)
    (hg : h.get r = some dr) : (h.alloc d).1.get r = some dr := by
  have hlt := Heap.get_lt_next hwf hg
  unfold Heap.alloc Heap.get
  simp only [List.find?_cons]
  rw [show (decide (h.next = r)) = false by simp; omega]
  exact hg

theorem Heap.get_alloc_new (h : Heap) (d : RawDF) :
    (h.alloc d).1.get (h.alloc d).2 = some d := by
  unfold Heap.alloc Heap.get
  simp [List.find?_cons]

theorem Heap.get_write_ne (h : Heap) (r r2 : ℕ) (d : RawDF) (hne : r2 ≠ r) :
    (h.write r d).get r2 = h.get r2 := by
  unfold Heap.write Heap.get
  induction h.mem with
  | nil => rfl
  | cons p mem ih =>
    simp only [List.map_cons, List.find?_cons]
    by_cases hp : p.1 = r
    · rw [if_pos hp]
      rw [show (decide ((r, d).1 = r2)) = false from by
        simp; exact fun he => hne he.symm]
      rw [show (decide (p.1 = r2)) = false from by
        rw [hp]; simp; exact fun he => hne he.symm]
      exact ih
    · rw [if_neg hp]
      cases hd : decide (p.1 = r2) with
      | true => rfl
      | false => exact ih

theorem Heap.get_writeCol_ne (h : Heap) (r r2 : ℕ) (c : String) (cells : List Cell)
    (hne : r2 ≠ r) : (h.writeCol r c cells).get r2 = h.get r2 := by
  unfold Heap.writeCol
  cases h.get r with
  | none => rfl
  | some d => exact Heap.get_write_ne h r r2 _ hne

theorem Heap.WF_alloc {h : Heap} (hwf : h.WF) (d : RawDF) : (h.alloc d).1.WF := by
  intro p hp
  rcases List.mem_cons.mp hp with h1 | h1
  · rw [h1]; exact Nat.lt_succ_self _
  · exact Nat.lt_succ_of_lt (hwf p h1)

theorem Heap.WF_write {h : Heap} (hwf : h.WF) (r : ℕ) (d : RawDF) :
    (h.write r d).WF := by
  intro p hp
  obtain ⟨q, hq, hqe⟩ := List.mem_map.mp hp
  by_cases hqr : q.1 = r
  · rw [← hqe]
    simp only [hqr, if_true]
    exact hqr ▸ hwf q hq
  · rw [← hqe]
    simp only [hqr, if_false]
    exact hwf q hq

theorem Heap.WF_writeCol {h : Heap} (hwf : h.WF) (r : ℕ) (c : String)
    (cells : List Cell) : (h.writeCol r c cells).WF := by
  unfold Heap.writeCol
  cases h.get r with
  | none => exact hwf
  | some d => exact Heap.WF_write hwf r _

theorem Heap.next_writeCol (h : Heap) (r : ℕ) (c : String) (cells : List Cell) :
    (h.writeCol r c cells).next = h.next := by
  unfold Heap.writeCol
  cases h.get r with
  | none => rfl
  | some d => rfl

theorem find_write_list (mem : List (ℕ × RawDF)) (r : ℕ) (d dr : RawDF)
    (hg : (mem.find? (fun p => p.1 = r)).map (fun p => p.2) = some dr) :
    ((mem.map (fun p => if p.1 = r then (r, d) else p)).find?
        (fun p => p.1 = r)).map (fun p => p.2) = some d := by
  induction mem with
  | nil => simp at hg
  | cons p mem ih =>
    by_cases hp : p.1 = r
    · rw [List.map_cons, if_pos hp, List.find?_cons]
      simp
    · rw [List.find?_cons] at hg
      simp only [show decide (p.1 = r) = false from by simp [hp]] at hg
      rw [List.map_cons, if_neg hp, List.find?_cons]
      simp only [show decide (p.1 = r) = false from by simp [hp]]
      exact ih hg

theorem Heap.get_write_self {h : Heap} {r : ℕ} {dr : RawDF} (hg : h.get r = some dr)
    (d : RawDF) : (h.write r d).get r = some d := by
  unfold Heap.get Heap.write at *
  exact find_write_list h.mem r d dr hg

theorem Heap.get_writeCol_self {h : Heap} {r : ℕ} {dr : RawDF}
    (hg : h.get r = some dr) (c : String) (cells : List Cell) :
    (h.writeCol r c cells).get r = some (dfSetColVals dr c cells) := by
  unfold Heap.writeCol
  rw [hg]
  exact Heap.get_write_self hg _

theorem mem_setColName_self (cols : List String) (c : String) :
    c ∈ setColName cols c := by
  unfold setColName
  split_ifs with h
  · exact h
  · exact List.mem_append.mpr (Or.inr (List.mem_singleton.mpr rfl))

/-- String content of a cell, defaulting to empty. -/
def strOf : Cell → String
  | .str s => s
  | _ => ""

/-- Numeric content of a cell, defaulting to 0. -/
def numOf : Cell → ℚ
  | .num q => q
  | _ => 0

/-- Optional numeric content of a cell. -/
def optNumOf : Cell → Option ℚ
  | .num q => some q
  | _ => none

/-- Natural-number content of a cell (player ids). -/
def natOf : Cell → ℕ
  | .num q => q.num.toNat
  | _ => 0

/-- Projection of a schema row to the typed row of the value analysis. -/
def prowOfRRow (r : RRow) : PRow :=
  { long_name := strOf (cellAt r "long_name"), club_name := strOf (cellAt r "club_name"),
    player_positions := strOf (cellAt r "player_positions"),
    gender := strOf (cellAt r "gender"), overall := numOf (cellAt r "overall"),
    value_eur := numOf (cellAt r "value_eur"), age := numOf (cellAt r "age"),
    potential := numOf (cellAt r "potential") }

/-- Projection of a schema row to the typed row of similarity and clustering. -/
def srowOfRRow (r : RRow) : SRow :=
  { player_id := natOf (cellAt r "player_id"), long_name := strOf (cellAt r "long_name"),
    club_name := strOf (cellAt r "club_name"), overall := optNumOf (cellAt r "overall"),
    pace := optNumOf (cellAt r "pace"), shooting := optNumOf (cellAt r "shooting"),
    passing := optNumOf (cellAt r "passing"),
    dribbling := optNumOf (cellAt r "dribbling"),
    defending := optNumOf (cellAt r "defending"), physic := optNumOf (cellAt r "physic"),
    age := optNumOf (cellAt r "age"), value_eur := numOf (cellAt r "value_eur") }

/-- The value_per_overall column cells. -/
def ratioCell : Cell → Cell → Cell
  | .num a, .num b => .num (a / b)
  | _, _ => .missing

/-- The output frame of `identify_undervalued_players`. -/
def uRowsToRawDF (rs : List URow) : RawDF :=
  ⟨["long_name", "club_name", "overall", "value_eur", "value_per_overall"],
   rs.map (fun u =>
     [("long_name", .str u.long_name), ("club_name", .str u.club_name),
      ("overall", .num u.overall), ("value_eur", .num u.value_eur),
      ("value_per_overall", .num u.value_per_overall)])⟩

/-- The output frame of `find_similar_players`. -/
def simOutToRawDF (rs : List SimOut) : RawDF :=
  ⟨["long_name", "club_name", "overall", "value_eur", "similarity_score"],
   rs.map (fun u =>
     [("long_name", .str u.long_name), ("club_name", .str u.club_name),
      ("overall", match u.overall with | some q => Cell.num q | none => Cell.missing),
      ("value_eur", .num u.value_eur), ("similarity_score", .num u.similarity_key)])⟩

/-- Heap program of `identify_undervalued_players`: copy the input frame,
assign the value_per_overall column in place on the copy, and allocate the
selected output frame (median, filter, sort, head from the pure embedding). -/
def identify_undervalued_heap (h : Heap) (r : ℕ) (t : ℚ) : Heap × ℕ :=
  match h.get r with
  | none => (h, r)
  | some d =>
    ((h.alloc d).1.writeCol (h.alloc d).2 "value_per_overall"
      (d.rows.map (fun row =>
        ratioCell (cellAt row "value_eur") (cellAt row "overall")))).alloc
      (uRowsToRawDF (identify_undervalued_players (d.rows.map prowOfRRow) t))

/-- Result rows of `find_similar_players` on a frame, empty on a raise. -/
def simOutsOf (d : RawDF) (pid n : ℕ) : List SimOut :=
  match find_similar_players (d.rows.map srowOfRRow) pid n with
  | .ok l => l
  | .error _ => []

/-- The `.loc` selection of the similar rows of a frame. -/
def simSelRaw (d : RawDF) (pid n : ℕ) : RawDF :=
  ⟨d.cols, (simSelectedIdx (d.rows.map srowOfRRow) pid n).map (fun i => d.rows.getD i [])⟩

/-- Heap program of `find_similar_players`: `.loc` selection (fresh frame),
an explicit `.copy()` (fresh frame), the in-place similarity_score
assignment on the copy, and the column-selected output frame (fresh). -/
def find_similar_heap (h : Heap) (r : ℕ) (pid n : ℕ) : Heap × ℕ :=
  match h.get r with
  | none => (h, r)
  | some d =>
    ((((h.alloc (simSelRaw d pid n)).1.alloc (simSelRaw d pid n)).1.writeCol
        ((h.alloc (simSelRaw d pid n)).1.alloc (simSelRaw d pid n)).2
        "similarity_score"
        ((simOutsOf d pid n).map (fun u => Cell.num u.similarity_key))).alloc
      (simOutToRawDF (simOutsOf d pid n)))

/-- The `.loc` plus `.copy()` frame of `perform_clustering`: the rows whose
clustering features are complete. -/
def clusterSelRaw (d : RawDF) : RawDF :=
  ⟨d.cols, d.rows.filter (fun row => clusterComplete (srowOfRRow row))⟩

/-- Heap program of `perform_clustering`: one fresh copy of the kept rows,
then the in-place cluster column assignment on that copy, which is
returned. -/
def perform_clustering_heap (h : Heap) (r : ℕ) (n : ℕ) : Heap × ℕ :=
  match h.get r with
  | none => (h, r)
  | some d =>
    ((h.alloc (clusterSelRaw d)).1.writeCol (h.alloc (clusterSelRaw d)).2 "cluster"
        ((perform_clustering (d.rows.map srowOfRRow) n).map
          (fun p => Cell.num (p.2 : ℚ))),
     (h.alloc (clusterSelRaw d)).2)

/-- Heap program of `calculate_performance_index`: a pure read of one row. -/
def calculate_performance_index_heap (h : Heap) (row : Player) : Heap × ℚ :=
  (h, calculate_performance_index row)

/-- C4: loaded player records are read-only across the analysis calls: for
every well-formed heap and frame reference, each of the four analysis
operations leaves the input frame's columns and rows exactly as they were,
returns a reference distinct from the input, and the added column
(value_per_overall, similarity_score, cluster) appears only on the returned
fresh frame; `calculate_performance_index` does not touch the heap at all. -/
theorem analysis_inputs_read_only (h : Heap) (r : ℕ) (d : RawDF)
    (t : ℚ) (pid n nc : ℕ) (row : Player) (hwf : h.WF) (hget : h.get r = some d) :
    ((identify_undervalued_heap h r t).1.get r = some d ∧
      (identify_undervalued_heap h r t).2 ≠ r ∧
      ∃ dout, (identify_undervalued_heap h r t).1.get
            (identify_undervalued_heap h r t).2 = some dout ∧
          "value_per_overall" ∈ dout.cols) ∧
    ((find_similar_heap h r pid n).1.get r = some d ∧
      (find_similar_heap h r pid n).2 ≠ r ∧
      ∃ dout, (find_similar_heap h r pid n).1.get
            (find_similar_heap h r pid n).2 = some dout ∧
          "similarity_score" ∈ dout.cols) ∧
    ((perform_clustering_heap h r nc).1.get r = some d ∧
      (perform_clustering_heap h r nc).2 ≠ r ∧
      ∃ dout, (perform_clustering_heap h r nc).1.get
            (perform_clustering_heap h r nc).2 = some dout ∧
          "cluster" ∈ dout.cols) ∧
    (calculate_performance_index_heap h row).1 = h := by
  have hlt := Heap.get_lt_next hwf hget
  refine ⟨?_, ?_, ?_, rfl⟩
  · -- identify_undervalued_players
    unfold identify_undervalued_heap
    rw [hget]
    have hg1 : (h.alloc d).1.get r = some d := Heap.get_alloc_old hwf hget
    have hwf1 : (h.alloc d).1.WF := Heap.WF_alloc hwf d
    have hne1 : r ≠ (h.alloc d).2 := by
      show r ≠ h.next
      omega
    have hg2 : ((h.alloc d).1.writeCol (h.alloc d).2 "value_per_overall"
        (d.rows.map (fun row =>
          ratioCell (cellAt row "value_eur") (cellAt row "overall")))).get r = some d := by
      rw [Heap.get_writeCol_ne _ _ _ _ _ hne1]
      exact hg1
    have hwf2 := Heap.WF_writeCol hwf1 (h.alloc d).2 "value_per_overall"
      (d.rows.map (fun row =>
        ratioCell (cellAt row "value_eur") (cellAt row "overall")))
    refine ⟨Heap.get_alloc_old hwf2 hg2, ?_, ⟨_, Heap.get_alloc_new _ _, ?_⟩⟩
    · show ((h.alloc d).1.writeCol (h.alloc d).2 _ _).next ≠ r
      rw [Heap.next_writeCol]
      show h.next + 1 ≠ r
      omega
    · simp [uRowsToRawDF]
  · -- find_similar_players
    unfold find_similar_heap
    rw [hget]
    have hg1 : (h.alloc (simSelRaw d pid n)).1.get r = some d :=
      Heap.get_alloc_old hwf hget
    have hwf1 : (h.alloc (simSelRaw d pid n)).1.WF := Heap.WF_alloc hwf _
    have hg2 : ((h.alloc (simSelRaw d pid n)).1.alloc (simSelRaw d pid n)).1.get r
        = some d := Heap.get_alloc_old hwf1 hg1
    have hwf2 : ((h.alloc (simSelRaw d pid n)).1.alloc (simSelRaw d pid n)).1.WF :=
      Heap.WF_alloc hwf1 _
    have hne2 : r ≠ ((h.alloc (simSelRaw d pid n)).1.alloc (simSelRaw d pid n)).2 := by
      show r ≠ h.next + 1
      omega
    have hg3 : (((h.alloc (simSelRaw d pid n)).1.alloc (simSelRaw d pid n)).1.writeCol
        ((h.alloc (simSelRaw d pid n)).1.alloc (simSelRaw d pid n)).2
        "similarity_score"
        ((simOutsOf d pid n).map (fun u => Cell.num u.similarity_key))).get r
        = some d := by
      rw [Heap.get_writeCol_ne _ _ _ _ _ hne2]
      exact hg2
    have hwf3 := Heap.WF_writeCol hwf2
      ((h.alloc (simSelRaw d pid n)).1.alloc (simSelRaw d pid n)).2
      "similarity_score"
      ((simOutsOf d pid n).map (fun u => Cell.num u.similarity_key))
    refine ⟨Heap.get_alloc_old hwf3 hg3, ?_, ⟨_, Heap.get_alloc_new _ _, ?_⟩⟩
    · show ((((h.alloc (simSelRaw d pid n)).1.alloc (simSelRaw d pid n)).1.writeCol
          _ _ _).next) ≠ r
      rw [Heap.next_writeCol]
      show h.next + 1 + 1 ≠ r
      omega
    · simp [simOutToRawDF]
  · -- perform_clustering
    unfold perform_clustering_heap
    rw [hget]
    have hg1 : (h.alloc (clusterSelRaw d)).1.get r = some d :=
      Heap.get_alloc_old hwf hget
    have hwf1 : (h.alloc (clusterSelRaw d)).1.WF := Heap.WF_alloc hwf _
    have hne1 : r ≠ (h.alloc (clusterSelRaw d)).2 := by
      show r ≠ h.next
      omega
    have hnew : (h.alloc (clusterSelRaw d)).1.get (h.alloc (clusterSelRaw d)).2
        = some (clusterSelRaw d) := Heap.get_alloc_new _ _
    refine ⟨?_, ?_, ⟨_, Heap.get_writeCol_self hnew "cluster" _, ?_⟩⟩
    · rw [Heap.get_writeCol_ne _ _ _ _ _ hne1]
      exact hg1
    · show h.next ≠ r
      omega
    · show "cluster" ∈ (dfSetColVals (clusterSelRaw d) "cluster" _).cols
      exact mem_setColName_self _ _

/-- Concrete frame for the C4 witness. -/
def dW : RawDF := ⟨["overall", "value_eur"], []⟩

/-- Concrete one-object heap for the C4 witness. -/
def hW : Heap := ⟨1, [(0, dW)]⟩

/-- Witness for C4: on the concrete heap, `identify_undervalued_players`
leaves the input frame unchanged. -/
theorem analysis_inputs_read_only_witness :
    (identify_undervalued_heap hW 0 (4/5)).1.get 0 = some dW :=
  (analysis_inputs_read_only hW 0 dW (4/5) 1 2 3 playerC1
    (by
      intro p hp
      simp only [hW, List.mem_singleton] at hp
      rw [hp]
      decide)
    (by rfl)).1.1

end FifaDash
